import Mathlib

/-!
Shallow embedding of the control-plane client in `utilities/ovs-p4ctl.py`
(value codec, P4Info schema lookups, table-entry construction, stream
session handshake, and batched-write error decoding), together with
theorems checking the natural-language specification against it.

Bytes are modelled as `List Nat` (each entry a byte value), Python strings
as Lean `String`, Python `None`-able arguments as `Option`, and raised
exceptions as the `Except PErr` monad.  Real time in the stream-session
loop is abstracted by the finite list of messages the inbound queue yields
before the time budget expires.
-/

namespace OvsP4Ctl

/-- Exceptions raised by the Python code, by kind: `invalidArgument` is the
`AssertionError` raised by `P4InfoHelper.get` when both name and id are
given; `notFound` the `AttributeError` of failed schema lookups;
`encodingError` the plain `Exception`s of the codec and match dispatch;
`assertionFailed` the `assert len == byte_len` in `encode`;
`valueError` errors raised inside library calls (`socket.inet_aton`,
`codecs.decode`); `typeError` subscripting / assigning a value of the
wrong shape. -/
inductive PErr where
  | invalidArgument
  | notFound
  | encodingError (msg : String)
  | assertionFailed
  | valueError (msg : String)
  | typeError
deriving DecidableEq, Repr

/-- Source `bitwidthToBytes`: `int(math.ceil(bitwidth / 8.0))`. -/
def bitwidthToBytes (bitwidth : Nat) : Nat := (bitwidth + 7) / 8

/-- Big-endian base-256 digits of `v`, zero-padded to `len` bytes (the
result of hex-decoding the zero-padded `'%x' % v` string in `encodeNum`). -/
def natToBytesBE : Nat → Nat → List Nat
  | _, 0 => []
  | v, len + 1 => natToBytesBE (v / 256) len ++ [v % 256]

/-- Source `encodeNum`: raises when `number >= 2 ** bitwidth`; otherwise
zero-pads the hex string of `number` to `2 * byte_len` characters and
hex-decodes it, i.e. produces the big-endian bytes.  For `bitwidth = 0`
the guard only admits `number = 0`, whose hex string `"0"` cannot be
padded down to 0 characters, so `codecs.decode` fails on the odd-length
string. -/
def encodeNum (number bitwidth : Nat) : Except PErr (List Nat) :=
  if number ≥ 2 ^ bitwidth then
    .error (.encodingError "Number does not fit")
  else if bitwidth = 0 then
    .error (.valueError "Odd-length string")
  else
    .ok (natToBytesBE number (bitwidthToBytes bitwidth))

/-- Source `decodeNum`: `int(hex(bytes), 16)`, the big-endian value. -/
def decodeNum (bs : List Nat) : Nat :=
  bs.foldl (fun acc b => acc * 256 + b) 0

/-- Character class `[\da-fA-F]` of the MAC regex. -/
def isHexDigit (c : Char) : Bool :=
  c.isDigit || ('a' ≤ c && c ≤ 'f') || ('A' ≤ c && c ≤ 'F')

/-- Source `matchesMac`: the regex of five "two hex digits and a colon"
groups followed by two hex digits — seventeen characters, colons at
positions 2, 5, 8, 11 and 14, hex digits everywhere else. -/
def matchesMac (s : String) : Bool :=
  match s.data with
  | [a, b, ':', c, d, ':', e, f, ':', g, h, ':', i, j, ':', k, l] =>
    isHexDigit a && isHexDigit b && isHexDigit c && isHexDigit d &&
    isHexDigit e && isHexDigit f && isHexDigit g && isHexDigit h &&
    isHexDigit i && isHexDigit j && isHexDigit k && isHexDigit l
  | _ => false

/-- Numeric value of a hex digit (0 for non-hex characters, which the
caller rules out). -/
def hexVal (c : Char) : Nat :=
  if c.isDigit then c.toNat - 48
  else if 'a' ≤ c && c ≤ 'f' then c.toNat - 97 + 10
  else if 'A' ≤ c && c ≤ 'F' then c.toNat - 65 + 10
  else 0

/-- Hex-decoding of a character list (`codecs.decode(-, 'hex_codec')`):
fails on odd length or non-hex characters. -/
def hexDecode : List Char → Option (List Nat)
  | [] => some []
  | [_] => none
  | c1 :: c2 :: rest =>
    if isHexDigit c1 && isHexDigit c2 then
      (hexDecode rest).map (fun bs => (hexVal c1 * 16 + hexVal c2) :: bs)
    else none

/-- Source `encodeMac`: drop the colons and hex-decode what remains. -/
def encodeMac (s : String) : Option (List Nat) :=
  hexDecode (s.data.filter (fun c => c ≠ ':'))

/-- Split a character list on every dot (Python-style `split` keeping
empty groups). -/
def splitOnDot : List Char → List (List Char)
  | [] => [[]]
  | c :: cs =>
    let r := splitOnDot cs
    if c = '.' then [] :: r
    else
      match r with
      | g :: gs => (c :: g) :: gs
      | [] => [[c]]

/-- Digit group `\d` repeated 1 to 3 times, from the IPv4 regex. -/
def isDigitGroup (cs : List Char) : Bool :=
  decide (1 ≤ cs.length) && decide (cs.length ≤ 3) && cs.all Char.isDigit

/-- Source `matchesIPv4`: the regex of four dot-separated groups of one to
three decimal digits. -/
def matchesIPv4 (s : String) : Bool :=
  match splitOnDot s.data with
  | [a, b, c, d] => isDigitGroup a && isDigitGroup b && isDigitGroup c && isDigitGroup d
  | _ => false

/-- Decimal value of a digit list. -/
def decimalVal (cs : List Char) : Nat :=
  cs.foldl (fun acc c => acc * 10 + (c.toNat - 48)) 0

/-- Octal value of a digit list. -/
def octalVal (cs : List Char) : Nat :=
  cs.foldl (fun acc c => acc * 8 + (c.toNat - 48)) 0

/-- One dotted-quad component the way `inet_aton` parses it: a leading
zero switches to octal (rejecting the digits 8 and 9), otherwise decimal. -/
def parseOctet : List Char → Option Nat
  | [] => none
  | '0' :: rest =>
    if rest.isEmpty then some 0
    else if rest.all (fun c => c.isDigit && c ≤ '7') then some (octalVal rest)
    else none
  | cs => if cs.all Char.isDigit then some (decimalVal cs) else none

/-- Source `encodeIPv4`, i.e. `socket.inet_aton`, modelled on the
dotted-quad all-digit strings that can reach it under `matchesIPv4`:
four components, each parsed per `parseOctet` and at most 255. -/
def encodeIPv4 (s : String) : Option (List Nat) :=
  match splitOnDot s.data with
  | [a, b, c, d] =>
    match parseOctet a, parseOctet b, parseOctet c, parseOctet d with
    | some x, some y, some z, some w =>
      if x ≤ 255 && y ≤ 255 && z ≤ 255 && w ≤ 255 then some [x, y, z, w]
      else none
    | _, _, _, _ => none
  | _ => none

/-- Python value handed to `encode` / `get_match_field_pb`: a string, an
int, a 2-tuple, or a list. -/
inductive P4Value where
  | vstr (s : String)
  | vint (n : Nat)
  | vpair (a b : P4Value)
  | vlist (xs : List P4Value)

/-- Character codes of a string (what `len` and pass-through measure on
the "already encoded" branch of `encode`). -/
def strBytes (s : String) : List Nat := s.data.map Char.toNat

/-- Source `encode`: unwrap a one-element list/tuple; a string is tried as
MAC, then IPv4, else passed through unchanged; an int goes to `encodeNum`;
any other type raises.  The single length check is the final
`assert len(encoded_bytes) == byte_len`, modelled as `assertionFailed`. -/
def encode (x : P4Value) (bitwidth : Nat) : Except PErr (List Nat) :=
  let byte_len := bitwidthToBytes bitwidth
  let x1 :=
    match x with
    | .vlist [y] => y
    | other => other
  let enc : Except PErr (List Nat) :=
    match x1 with
    | .vstr s =>
      if matchesMac s then
        match encodeMac s with
        | some bs => .ok bs
        | none => .error (.valueError "Non-hexadecimal digit found")
      else if matchesIPv4 s then
        match encodeIPv4 s with
        | some bs => .ok bs
        | none => .error (.valueError "illegal IP address string")
      else .ok (strBytes s)
    | .vint n => encodeNum n bitwidth
    | _ => .error (.encodingError "Encoding objects of this type is not supported")
  match enc with
  | .error e => .error e
  | .ok bs => if bs.length = byte_len then .ok bs else .error .assertionFailed

/-- Preamble of a P4Info entity: numeric id, primary name, alias. -/
structure Preamble where
  id : Nat
  name : String
  aliasStr : String
deriving DecidableEq, Repr

/-- Match kinds of `p4info_pb2.MatchField.MatchType` (plus the values the
dispatch in `get_match_field_pb` does not support). -/
inductive MatchType where
  | unspecified
  | exact
  | lpm
  | ternary
  | range
  | optionalMatch
deriving DecidableEq, Repr

/-- Match-field descriptor of a table in the P4Info schema. -/
structure MatchFieldInfo where
  id : Nat
  name : String
  bitwidth : Nat
  match_type : MatchType
deriving DecidableEq, Repr

/-- Table descriptor of the P4Info schema. -/
structure Table where
  preamble : Preamble
  match_fields : List MatchFieldInfo
deriving DecidableEq, Repr

/-- Action-parameter descriptor. -/
structure ActionParam where
  id : Nat
  name : String
  bitwidth : Nat
deriving DecidableEq, Repr

/-- Action descriptor of the P4Info schema. -/
structure ActionInfo where
  preamble : Preamble
  params : List ActionParam
deriving DecidableEq, Repr

/-- The P4Info schema snapshot held by `P4InfoHelper`. -/
structure P4Info where
  tables : List Table
  actions : List ActionInfo
deriving DecidableEq, Repr

/-- Python truthiness of an optional string (`if name:`): false for `None`
and for the empty string. -/
def truthyStr : Option String → Bool
  | none => false
  | some s => !(s == "")

/-- The scan loop of `P4InfoHelper.get`: `if name:` selects matching by
primary name or alias, otherwise the element's id is compared with the
(possibly `None`) `id` argument. -/
def getScan {α : Type} (pre : α → Preamble) (name : Option String)
    (id : Option Nat) : List α → Option α
  | [] => none
  | o :: os =>
    if truthyStr name then
      if (pre o).name = name.getD "" || (pre o).aliasStr = name.getD "" then some o
      else getScan pre name id os
    else
      if id = some (pre o).id then some o
      else getScan pre name id os

/-- Source `P4InfoHelper.get` over the collection for one entity type:
raises `AssertionError` when both `name` and `id` are given, scans the
collection, and raises `AttributeError` when nothing matches. -/
def get {α : Type} (pre : α → Preamble) (coll : List α) (name : Option String)
    (id : Option Nat) : Except PErr α :=
  if name.isSome && id.isSome then .error .invalidArgument
  else
    match getScan pre name id coll with
    | some o => .ok o
    | none => .error .notFound

/-- Source `get_tables_id` (synthesized accessor): `get` on the tables
collection by name, projecting the preamble id. -/
def get_tables_id (info : P4Info) (name : String) : Except PErr Nat :=
  match get Table.preamble info.tables (some name) none with
  | .ok t => .ok t.preamble.id
  | .error e => .error e

/-- Source `get_actions_id` (synthesized accessor). -/
def get_actions_id (info : P4Info) (name : String) : Except PErr Nat :=
  match get ActionInfo.preamble info.actions (some name) none with
  | .ok a => .ok a.preamble.id
  | .error e => .error e

/-- Inner test of the `get_match_field` scan: `name is not None` matches
by field name, else `id is not None` matches by field id, else nothing
matches. -/
def mfMatches (mf : MatchFieldInfo) (name : Option String) (id : Option Nat) : Bool :=
  match name with
  | some n => mf.name = n
  | none =>
    match id with
    | some i => mf.id = i
    | none => false

/-- The nested loops of `get_match_field`: every table whose preamble name
equals `table_name` is scanned in order. -/
def get_match_field_scan (tables : List Table) (table_name : String)
    (name : Option String) (id : Option Nat) : Option MatchFieldInfo :=
  match tables with
  | [] => none
  | t :: ts =>
    if t.preamble.name = table_name then
      match t.match_fields.find? (fun mf => mfMatches mf name id) with
      | some mf => some mf
      | none => get_match_field_scan ts table_name name id
    else get_match_field_scan ts table_name name id

/-- Source `P4InfoHelper.get_match_field`: the scan above, raising
`AttributeError` when no field is found. -/
def get_match_field (info : P4Info) (table_name : String) (name : Option String)
    (id : Option Nat) : Except PErr MatchFieldInfo :=
  match get_match_field_scan info.tables table_name name id with
  | some mf => .ok mf
  | none => .error .notFound

/-- Python subscripting `value[i]` for the values reaching
`get_match_field_pb`: tuples and lists index positionally, a string yields
a one-character string, other types raise `TypeError` (`none`). -/
def pyIndex (v : P4Value) (i : Nat) : Option P4Value :=
  match v with
  | .vpair a b => if i = 0 then some a else if i = 1 then some b else none
  | .vlist xs => xs.get? i
  | .vstr s => (s.data.get? i).map (fun c => .vstr (String.mk [c]))
  | .vint _ => none

/-- Wire-level match value of a `p4runtime_pb2.FieldMatch` oneof. -/
inductive FieldMatchValue where
  | exact (value : List Nat)
  | lpm (value : List Nat) (pLen : Nat)
  | ternary (value : List Nat) (mask : List Nat)
  | range (low : List Nat) (high : List Nat)
deriving DecidableEq, Repr

/-- Wire-level `FieldMatch`: field id plus the match value. -/
structure FieldMatch where
  field_id : Nat
  value : FieldMatchValue
deriving DecidableEq, Repr

/-- Source `P4InfoHelper.get_match_field_pb`: look the field up by name,
then dispatch on its match type; EXACT encodes the scalar, LPM encodes
`value[0]` and stores `value[1]` as the prefix length (an int), TERNARY
and RANGE encode both components, and any other match type raises. -/
def get_match_field_pb (info : P4Info) (table_name match_field_name : String)
    (value : P4Value) : Except PErr FieldMatch :=
  match get_match_field info table_name (some match_field_name) none with
  | .error e => .error e
  | .ok p4info_match =>
    let bitwidth := p4info_match.bitwidth
    match p4info_match.match_type with
    | .exact =>
      match encode value bitwidth with
      | .error e => .error e
      | .ok bs => .ok ⟨p4info_match.id, .exact bs⟩
    | .lpm =>
      match pyIndex value 0 with
      | none => .error .typeError
      | some v0 =>
        match encode v0 bitwidth with
        | .error e => .error e
        | .ok bs =>
          match pyIndex value 1 with
          | some (.vint n) => .ok ⟨p4info_match.id, .lpm bs n⟩
          | _ => .error .typeError
    | .ternary =>
      match pyIndex value 0 with
      | none => .error .typeError
      | some v0 =>
        match encode v0 bitwidth with
        | .error e => .error e
        | .ok bs =>
          match pyIndex value 1 with
          | none => .error .typeError
          | some v1 =>
            match encode v1 bitwidth with
            | .error e => .error e
            | .ok ms => .ok ⟨p4info_match.id, .ternary bs ms⟩
    | .range =>
      match pyIndex value 0 with
      | none => .error .typeError
      | some v0 =>
        match encode v0 bitwidth with
        | .error e => .error e
        | .ok lo =>
          match pyIndex value 1 with
          | none => .error .typeError
          | some v1 =>
            match encode v1 bitwidth with
            | .error e => .error e
            | .ok hi => .ok ⟨p4info_match.id, .range lo hi⟩
    | _ => .error (.encodingError "Unsupported match type")

/-- The nested loops of `get_action_param`: every action whose preamble
name equals `action_name` is scanned in order. -/
def get_action_param_scan (actions : List ActionInfo) (action_name : String)
    (name : Option String) (id : Option Nat) : Option ActionParam :=
  match actions with
  | [] => none
  | a :: rest =>
    if a.preamble.name = action_name then
      match a.params.find? (fun p =>
        match name with
        | some n => p.name = n
        | none =>
          match id with
          | some i => p.id = i
          | none => false) with
      | some p => some p
      | none => get_action_param_scan rest action_name name id
    else get_action_param_scan rest action_name name id

/-- Source `P4InfoHelper.get_action_param`, raising `AttributeError` when
the action or the parameter is absent. -/
def get_action_param (info : P4Info) (action_name : String) (name : Option String)
    (id : Option Nat) : Except PErr ActionParam :=
  match get_action_param_scan info.actions action_name name id with
  | some p => .ok p
  | none => .error .notFound

/-- Wire-level `p4runtime_pb2.Action.Param`. -/
structure ActionParamPB where
  param_id : Nat
  value : List Nat
deriving DecidableEq, Repr

/-- Source `P4InfoHelper.get_action_param_pb`: look the parameter up by
name and encode the value against its bitwidth. -/
def get_action_param_pb (info : P4Info) (action_name param_name : String)
    (value : P4Value) : Except PErr ActionParamPB :=
  match get_action_param info action_name (some param_name) none with
  | .error e => .error e
  | .ok p =>
    match encode value p.bitwidth with
    | .error e => .error e
    | .ok bs => .ok ⟨p.id, bs⟩

/-- Wire-level action reference inside a table entry. -/
structure ActionRef where
  action_id : Nat
  params : List ActionParamPB
deriving DecidableEq, Repr

/-- Wire-level `p4runtime_pb2.TableEntry` as `buildTableEntry` fills it. -/
structure TableEntry where
  table_id : Nat
  priority : Option Nat
  matchList : List FieldMatch
  is_default_action : Bool
  action : Option ActionRef
deriving DecidableEq, Repr

/-- The list comprehensions of `buildTableEntry`: evaluate `f` over the
items in order, propagating the first raised exception. -/
def mapPB {β : Type} (f : String × P4Value → Except PErr β) :
    List (String × P4Value) → Except PErr (List β)
  | [] => .ok []
  | x :: xs =>
    match f x with
    | .error e => .error e
    | .ok b =>
      match mapPB f xs with
      | .error e => .error e
      | .ok bs => .ok (b :: bs)

/-- Source `P4InfoHelper.buildTableEntry`: resolve the table id, set the
priority if given, build each match field, set the default-action flag,
and if an action name is (truthily) given resolve its id and build each
parameter.  Any exception raised along the way propagates; match-field
and param dicts are modelled as ordered association lists.  The source
guards `if match_fields:` and `if action_params:` skip empty dicts, which
coincides with mapping the comprehension over the empty list, so they are
not modelled separately. -/
def buildTableEntry (info : P4Info) (table_name : String)
    (match_fields : List (String × P4Value)) (default_action : Bool)
    (action_name : Option String) (action_params : List (String × P4Value))
    (priority : Option Nat) : Except PErr TableEntry :=
  match get_tables_id info table_name with
  | .error e => .error e
  | .ok tid =>
    match mapPB (fun p => get_match_field_pb info table_name p.1 p.2) match_fields with
    | .error e => .error e
    | .ok fms =>
      if truthyStr action_name then
        match get_actions_id info (action_name.getD "") with
        | .error e => .error e
        | .ok aid =>
          match mapPB (fun p => get_action_param_pb info (action_name.getD "") p.1 p.2)
              action_params with
          | .error e => .error e
          | .ok ps => .ok ⟨tid, priority, fms, default_action, some ⟨aid, ps⟩⟩
      else .ok ⟨tid, priority, fms, default_action, none⟩

/-- Canonical status code `code_pb2.OK`. -/
def OK_CODE : Nat := 0

/-- Canonical status code `code_pb2.INVALID_ARGUMENT`. -/
def INVALID_ARGUMENT_CODE : Nat := 3

/-- Oneof payload of a `p4runtime_pb2.StreamMessageResponse`. -/
inductive StreamMsg where
  | arbitration (status_code : Nat)
  | packet (payload : List Nat)
  | digest
deriving DecidableEq, Repr

/-- Protobuf `HasField` on the stream-message oneof. -/
def hasField (m : StreamMsg) (t : String) : Bool :=
  match m with
  | .arbitration _ => t = "arbitration"
  | .packet _ => t = "packet"
  | .digest => t = "digest"

/-- Source `P4RuntimeClient.get_stream_packet`: poll the inbound queue
under a shrinking time budget; a dequeued `None` sentinel returns `None`,
a message without the requested field is discarded, the first message with
it is returned, and an exhausted budget (`queue.Empty` or negative
remainder) returns `None`.  The `inbound` list is the sequence of items
the queue yields before the budget expires; its end models the timeout. -/
def get_stream_packet (type_ : String) (inbound : List (Option StreamMsg)) :
    Option StreamMsg :=
  match inbound with
  | [] => none
  | none :: _ => none
  | some msg :: rest =>
    if hasField msg type_ then some msg
    else get_stream_packet type_ rest

/-- Arbitration request sent by `handshake` (device id and the two halves
of the election id). -/
structure ArbitrationReq where
  device_id : Nat
  election_high : Nat
  election_low : Nat
deriving DecidableEq, Repr

/-- Result of `handshake`: `sys.exit(1)` on arbitration timeout, or an
established session recording mastership. -/
inductive HandshakeOutcome where
  | fatalExit (code : Nat)
  | established (is_master : Bool)
deriving DecidableEq, Repr

/-- Status code of the arbitration payload (`rep.arbitration.status.code`;
protobuf yields the default 0 when the oneof holds another field). -/
def arbitrationCode (m : StreamMsg) : Nat :=
  match m with
  | .arbitration c => c
  | _ => 0

/-- Source `P4RuntimeClient.handshake`: enqueue the arbitration request,
wait up to 2 seconds for an arbitration reply; no reply is fatal
(`sys.exit(1)`), a reply establishes the session with mastership exactly
when its status code is `code_pb2.OK`.  `inbound` abstracts what the
queue yields within the 2-second budget. -/
def handshake (device_id election_high election_low : Nat)
    (inbound : List (Option StreamMsg)) : ArbitrationReq × HandshakeOutcome :=
  (⟨device_id, election_high, election_low⟩,
   match get_stream_packet "arbitration" inbound with
   | none => .fatalExit 1
   | some rep => .established (arbitrationCode rep == OK_CODE))

/-- One `p4.Error` item decoded out of the batched write failure detail. -/
structure P4Error where
  canonical_code : Nat
  message : String
deriving DecidableEq, Repr

/-- One `Any` payload of the gRPC status `details` list: either it unpacks
to a `p4.Error` or `Unpack` fails. -/
inductive AnyMsg where
  | p4err (e : P4Error)
  | unpackFail
deriving DecidableEq, Repr

/-- Outcome of one `P4RuntimeErrorIterator.__next__` call. -/
inductive IterStep where
  | yielded (idx : Nat) (e : P4Error) (next_idx : Nat)
  | stopped
  | formatError
deriving DecidableEq, Repr

/-- Source `P4RuntimeErrorIterator.__next__`, fuel-indexed: while `idx`
is in range, unpack the current entry (`formatError` on failure); an entry
with canonical code OK executes `continue` WITHOUT advancing `idx` (the
loop re-reads the same entry); a non-OK entry is yielded with `idx`
advanced; past the end, `StopIteration`.  `none` means the loop did not
terminate within `fuel` iterations. -/
def iterNext (errors : List AnyMsg) (idx : Nat) : Nat → Option IterStep
  | 0 => none
  | fuel + 1 =>
    if h : idx < errors.length then
      match errors.get ⟨idx, h⟩ with
      | .unpackFail => some .formatError
      | .p4err e =>
        if e.canonical_code = OK_CODE then iterNext errors idx fuel
        else some (.yielded idx e (idx + 1))
    else some .stopped

/-- The collection loop of `P4RuntimeWriteException.__init__` with the
iterator inlined: append every yielded `(index, error)` pair until
`StopIteration`; a format exception propagates (`Except.error`).  `none`
means the loop did not terminate within `fuel` iterations. -/
def collectWriteErrors (errors : List AnyMsg) (idx : Nat)
    (acc : List (Nat × P4Error)) : Nat → Option (Except PErr (List (Nat × P4Error)))
  | 0 => none
  | fuel + 1 =>
    if h : idx < errors.length then
      match errors.get ⟨idx, h⟩ with
      | .unpackFail => some (.error (.valueError "Cannot convert Any message to p4.Error"))
      | .p4err e =>
        if e.canonical_code = OK_CODE then collectWriteErrors errors idx acc fuel
        else collectWriteErrors errors (idx + 1) (acc ++ [(idx, e)]) fuel
    else some (.ok acc)

deriving instance DecidableEq for Except

theorem natToBytesBE_length (len : Nat) : ∀ v, (natToBytesBE v len).length = len := by
  induction len with
  | zero => intro v; rfl
  | succ n ih => intro v; simp [natToBytesBE, ih]

theorem decodeNum_natToBytesBE (len : Nat) :
    ∀ v, decodeNum (natToBytesBE v len) = v % 256 ^ len := by
  induction len with
  | zero => intro v; simp [natToBytesBE, decodeNum, Nat.mod_one]
  | succ n ih =>
    intro v
    have h1 : decodeNum (natToBytesBE v (n + 1)) =
        decodeNum (natToBytesBE (v / 256) n) * 256 + v % 256 := by
      simp [natToBytesBE, decodeNum, List.foldl_append]
    have h2 : (256 : Nat) ^ (n + 1) = 256 * 256 ^ n := by ring
    rw [h1, ih, h2, Nat.mod_mul]
    ring

/-- The gRPC status `details` list of claim C1's scenario: item statuses
OK and INVALID_ARGUMENT with message "bad". -/
def c1BadDetails : List AnyMsg :=
  [.p4err ⟨OK_CODE, ""⟩, .p4err ⟨INVALID_ARGUMENT_CODE, "bad"⟩]

/-- C1: given a batched-write failure whose detail decodes to item
statuses OK then INVALID_ARGUMENT("bad"), the claim says submit terminates
and raises a WriteError with exactly the entry (1, INVALID_ARGUMENT,
"bad").  The code instead never terminates: `__next__` hits the OK entry
at index 0 and executes `continue` without advancing `idx`, so both the
iterator step and the collection loop of `P4RuntimeWriteException` run out
of any finite fuel without producing a result. -/
theorem c1_write_error_decoding_diverges_on_ok_entry :
    ∀ fuel, collectWriteErrors c1BadDetails 0 [] fuel = none ∧
      iterNext c1BadDetails 0 fuel = none := by
  intro fuel
  induction fuel with
  | zero => exact ⟨rfl, rfl⟩
  | succ n ih => exact ⟨ih.1, ih.2⟩

/-- C3: for bitwidths 1..64 and values below 2^b, encodeNum succeeds,
decodeNum inverts it, and the byte length is ceil(b/8). -/
theorem c3_encodeNum_decodeNum_roundtrip (b v : Nat) (hb1 : 1 ≤ b) (hb2 : b ≤ 64)
    (hv : v < 2 ^ b) :
    ∃ l, encodeNum v b = .ok l ∧ decodeNum l = v ∧ l.length = bitwidthToBytes b := by
  have hb0 : b ≠ 0 := by omega
  have hnot : ¬ (v ≥ 2 ^ b) := by omega
  refine ⟨natToBytesBE v (bitwidthToBytes b), ?_, ?_, natToBytesBE_length _ _⟩
  · simp [encodeNum, hnot, hb0]
  · rw [decodeNum_natToBytesBE]
    apply Nat.mod_eq_of_lt
    calc v < 2 ^ b := hv
    _ ≤ 2 ^ (8 * bitwidthToBytes b) := by
        apply Nat.pow_le_pow_right
        · norm_num
        · unfold bitwidthToBytes; omega
    _ = 256 ^ bitwidthToBytes b := by rw [pow_mul]; norm_num

/-- Witness for C3 at bitwidth 8 and value 171. -/
theorem c3_witness :
    ∃ l, encodeNum 171 8 = .ok l ∧ decodeNum l = 171 ∧ l.length = bitwidthToBytes 8 :=
  c3_encodeNum_decodeNum_roundtrip 8 171 (by decide) (by decide) (by decide)

/-- C4: for every bitwidth and every value at least 2^bitwidth, encodeNum
raises the does-not-fit EncodingError and produces no bytes. -/
theorem c4_encodeNum_overflow_fails (b v : Nat) (hv : 2 ^ b ≤ v) :
    encodeNum v b = .error (.encodingError "Number does not fit") := by
  simp [encodeNum, hv]

/-- Witness for C4 at bitwidth 4 and value 2^4 = 16. -/
theorem c4_witness :
    encodeNum 16 4 = .error (.encodingError "Number does not fit") :=
  c4_encodeNum_overflow_fails 4 16 (by decide)

/-- C6: the MAC text "aa:bb:cc:dd:ee:ff" encodes to its six hex bytes and
the dotted quad "10.10.10.10" to its four network-order bytes. -/
theorem c6_encode_mac_and_ipv4_text :
    encode (.vstr "aa:bb:cc:dd:ee:ff") 48 = .ok [0xAA, 0xBB, 0xCC, 0xDD, 0xEE, 0xFF] ∧
    encode (.vstr "10.10.10.10") 32 = .ok [0x0A, 0x0A, 0x0A, 0x0A] := by
  exact ⟨by decide, by decide⟩

theorem getScan_none_none {α : Type} (pre : α → Preamble) (coll : List α) :
    getScan pre none none coll = none := by
  induction coll with
  | nil => rfl
  | cons o os ih => simp [getScan, truthyStr, ih]

theorem getScan_name_mem {α : Type} (pre : α → Preamble) (n : String)
    (hn : n ≠ "") (coll : List α) :
    ((∀ o ∈ coll, ¬((pre o).name = n ∨ (pre o).aliasStr = n)) →
      getScan pre (some n) none coll = none) ∧
    (∀ o, getScan pre (some n) none coll = some o →
      o ∈ coll ∧ ((pre o).name = n ∨ (pre o).aliasStr = n)) := by
  induction coll with
  | nil => exact ⟨fun _ => rfl, fun o h => by simp [getScan] at h⟩
  | cons x xs ih =>
    have ht : truthyStr (some n) = true := by simp [truthyStr, hn]
    constructor
    · intro hall
      have hx := hall x (by simp)
      simp only [getScan, ht, if_true, Option.getD_some]
      rw [if_neg]
      · exact ih.1 (fun o ho => hall o (by simp [ho]))
      · simpa using hx
    · intro o hscan
      simp only [getScan, ht, if_true, Option.getD_some] at hscan
      by_cases hc : ((pre x).name = n || (pre x).aliasStr = n) = true
      · rw [if_pos (by simpa using hc)] at hscan
        cases hscan
        exact ⟨by simp, by simpa using hc⟩
      · rw [if_neg (by simpa using hc)] at hscan
        obtain ⟨hm, hp⟩ := ih.2 o hscan
        exact ⟨by simp [hm], hp⟩

theorem getScan_id_mem {α : Type} (pre : α → Preamble) (i : Nat) (coll : List α) :
    ((∀ o ∈ coll, (pre o).id ≠ i) → getScan pre none (some i) coll = none) ∧
    (∀ o, getScan pre none (some i) coll = some o →
      o ∈ coll ∧ (pre o).id = i) := by
  induction coll with
  | nil => exact ⟨fun _ => rfl, fun o h => by simp [getScan] at h⟩
  | cons x xs ih =>
    constructor
    · intro hall
      have hx := hall x (by simp)
      simp only [getScan, truthyStr, Bool.false_eq_true, if_false]
      rw [if_neg]
      · exact ih.1 (fun o ho => hall o (by simp [ho]))
      · intro hc
        exact hx (by injection hc with h2; exact h2.symm)
    · intro o hscan
      simp only [getScan, truthyStr, Bool.false_eq_true, if_false] at hscan
      by_cases hc : some i = some ((pre x).id)
      · rw [if_pos hc] at hscan
        cases hscan
        injection hc with h2
        exact ⟨by simp, h2.symm⟩
      · rw [if_neg hc] at hscan
        obtain ⟨hm, hp⟩ := ih.2 o hscan
        exact ⟨by simp [hm], hp⟩

/-- Sample table used to settle claim C2 on concrete inputs. -/
def c2Table : Table := ⟨⟨7, "t1", "t1alias"⟩, []⟩

/-- C2 counterexample: with NEITHER name nor id supplied, `get` does not
raise the InvalidArgument AssertionError the claim requires; it falls into
the id branch, matches nothing, and raises the not-found AttributeError. -/
theorem c2_counterexample_neither_supplied :
    get Table.preamble [c2Table] none none = .error .notFound ∧
    PErr.notFound ≠ PErr.invalidArgument :=
  ⟨by decide, by decide⟩

/-- C2 (amended): supplying both name and id fails with InvalidArgument;
supplying neither falls through the id scan and fails with NotFoundError;
with exactly one supplied the collection is scanned linearly, matching by
primary name or alias (for a non-empty name) or by id, and the call fails
with NotFoundError when no element matches. -/
theorem c2_get_resolution (α : Type) (pre : α → Preamble) (coll : List α)
    (n : String) (i : Nat) :
    (∀ name id, name ≠ none → id ≠ none →
      get pre coll name id = .error .invalidArgument) ∧
    (get pre coll none none = .error .notFound) ∧
    (n ≠ "" → (∀ o ∈ coll, ¬((pre o).name = n ∨ (pre o).aliasStr = n)) →
      get pre coll (some n) none = .error .notFound) ∧
    (n ≠ "" → ∀ o, get pre coll (some n) none = .ok o →
      o ∈ coll ∧ ((pre o).name = n ∨ (pre o).aliasStr = n)) ∧
    ((∀ o ∈ coll, (pre o).id ≠ i) → get pre coll none (some i) = .error .notFound) ∧
    (∀ o, get pre coll none (some i) = .ok o → o ∈ coll ∧ (pre o).id = i) := by
  refine ⟨?_, ?_, ?_, ?_, ?_, ?_⟩
  · intro name id hname hid
    cases name with
    | none => exact absurd rfl hname
    | some a =>
      cases id with
      | none => exact absurd rfl hid
      | some b => rfl
  · simp [get, getScan_none_none]
  · intro hn hall
    simp [get, (getScan_name_mem pre n hn coll).1 hall]
  · intro hn o hget
    simp only [get, Option.isSome_some, Option.isSome_none, Bool.and_false,
      Bool.false_eq_true, if_false] at hget
    cases hs : getScan pre (some n) none coll with
    | none => rw [hs] at hget; cases hget
    | some o2 =>
      rw [hs] at hget
      injection hget with h3
      subst h3
      exact (getScan_name_mem pre n hn coll).2 _ hs
  · intro hall
    simp [get, (getScan_id_mem pre i coll).1 hall]
  · intro o hget
    simp only [get, Option.isSome_some, Option.isSome_none, Bool.false_and,
      Bool.false_eq_true, if_false] at hget
    cases hs : getScan pre none (some i) coll with
    | none => rw [hs] at hget; cases hget
    | some o2 =>
      rw [hs] at hget
      injection hget with h3
      subst h3
      exact (getScan_id_mem pre i coll).2 _ hs

/-- Witness for C2 (amended): both supplied is InvalidArgument; a name
matching nothing is NotFound. -/
theorem c2_witness :
    get Table.preamble [c2Table] (some "t1") (some 7) = .error .invalidArgument ∧
    get Table.preamble [c2Table] (some "nope") none = .error .notFound :=
  ⟨(c2_get_resolution Table Table.preamble [c2Table] "t1" 7).1 (some "t1") (some 7)
      (by decide) (by decide),
   (c2_get_resolution Table Table.preamble [c2Table] "nope" 0).2.2.1
      (by decide) (by decide)⟩

/-- Sample schema used to settle claim C5: one table "t" with an EXACT
field "f" of bitwidth 32, an LPM field "g" of bitwidth 32, and a field "h"
whose match type the dispatch does not support. -/
def c5Info : P4Info :=
  ⟨[⟨⟨100, "t", "t"⟩,
     [⟨1, "f", 32, .exact⟩, ⟨2, "g", 32, .lpm⟩, ⟨3, "h", 8, .unspecified⟩]⟩], []⟩

/-- C5: get_match_field_pb dispatches on the field's match type: the EXACT
32-bit field with value "10.10.10.10" yields Exact(0A0A0A0A), the LPM
32-bit field with value ("10.10.10.0", 24) yields LPM(0A0A0A00, 24), and
every field whose match type is neither EXACT, LPM, TERNARY nor RANGE
fails with the unsupported-match-type EncodingError. -/
theorem c5_get_match_field_pb_dispatch :
    get_match_field_pb c5Info "t" "f" (.vstr "10.10.10.10") =
      .ok ⟨1, .exact [0x0A, 0x0A, 0x0A, 0x0A]⟩ ∧
    get_match_field_pb c5Info "t" "g" (.vpair (.vstr "10.10.10.0") (.vint 24)) =
      .ok ⟨2, .lpm [0x0A, 0x0A, 0x0A, 0x00] 24⟩ ∧
    (∀ (info : P4Info) (tn fn : String) (v : P4Value) (mf : MatchFieldInfo),
      get_match_field info tn (some fn) none = .ok mf →
      (mf.match_type = .unspecified ∨ mf.match_type = .optionalMatch) →
      get_match_field_pb info tn fn v = .error (.encodingError "Unsupported match type")) := by
  refine ⟨by decide, by decide, ?_⟩
  intro info tn fn v mf hget hmt
  obtain ⟨mid, mname, mbw, mt⟩ := mf
  unfold get_match_field_pb
  rw [hget]
  rcases hmt with h | h <;> (dsimp only at h; subst h; rfl)

/-- Witness for C5 on the unsupported-match-type branch. -/
theorem c5_witness :
    get_match_field_pb c5Info "t" "h" (.vint 0) =
      .error (.encodingError "Unsupported match type") :=
  c5_get_match_field_pb_dispatch.2.2 c5Info "t" "h" (.vint 0)
    ⟨3, "h", 8, .unspecified⟩ (by decide) (Or.inl rfl)

/-- Boolean predicate: every item of `q` is a real message (no sentinel)
that does not carry the field `tag`. -/
def allNonMatching (tag : String) (q : List (Option StreamMsg)) : Bool :=
  q.all fun x =>
    match x with
    | some msg => !hasField msg tag
    | none => false

/-- C7: get_stream_packet returns the first queued message carrying the
tag (discarding every earlier non-matching dequeued message), returns
`none` as soon as the closing sentinel is dequeued, returns `none` when
the available items are exhausted with nothing matching (the time budget
ran out), and a returned message always carries the tag. -/
theorem c7_get_stream_packet_spec (tag : String) :
    (∀ pre m post, allNonMatching tag pre = true → hasField m tag = true →
      get_stream_packet tag (pre ++ some m :: post) = some m) ∧
    (∀ pre post, allNonMatching tag pre = true →
      get_stream_packet tag (pre ++ none :: post) = none) ∧
    (∀ q, allNonMatching tag q = true → get_stream_packet tag q = none) ∧
    (∀ q m, get_stream_packet tag q = some m → hasField m tag = true) := by
  refine ⟨?_, ?_, ?_, ?_⟩
  · intro pre m post hpre hm
    induction pre with
    | nil => simp [get_stream_packet, hm]
    | cons x xs ih =>
      cases x with
      | none => simp [allNonMatching] at hpre
      | some msg =>
        simp only [allNonMatching, List.all_cons, Bool.and_eq_true] at hpre
        rw [List.cons_append]
        show (if hasField msg tag = true then some msg
              else get_stream_packet tag (xs ++ some m :: post)) = some m
        have h1 : hasField msg tag = false := by simpa using hpre.1
        rw [h1, if_neg (by simp)]
        exact ih (by simp [allNonMatching, hpre.2])
  · intro pre post hpre
    induction pre with
    | nil => rfl
    | cons x xs ih =>
      cases x with
      | none => simp [allNonMatching] at hpre
      | some msg =>
        simp only [allNonMatching, List.all_cons, Bool.and_eq_true] at hpre
        rw [List.cons_append]
        show (if hasField msg tag = true then some msg
              else get_stream_packet tag (xs ++ none :: post)) = none
        have h1 : hasField msg tag = false := by simpa using hpre.1
        rw [h1, if_neg (by simp)]
        exact ih (by simp [allNonMatching, hpre.2])
  · intro q hq
    induction q with
    | nil => rfl
    | cons x xs ih =>
      cases x with
      | none => simp [allNonMatching] at hq
      | some msg =>
        simp only [allNonMatching, List.all_cons, Bool.and_eq_true] at hq
        show (if hasField msg tag = true then some msg
              else get_stream_packet tag xs) = none
        have h1 : hasField msg tag = false := by simpa using hq.1
        rw [h1, if_neg (by simp)]
        exact ih (by simp [allNonMatching, hq.2])
  · intro q m
    induction q with
    | nil => intro h; cases h
    | cons x xs ih =>
      cases x with
      | none => intro h; cases h
      | some msg =>
        intro h
        simp only [get_stream_packet] at h
        by_cases hf : hasField msg tag = true
        · rw [if_pos hf] at h
          injection h with h2
          subst h2
          exact hf
        · rw [if_neg hf] at h
          exact ih h

/-- Witness for C7: a non-matching packet is discarded and the
arbitration message behind it is returned. -/
theorem c7_witness :
    get_stream_packet "arbitration"
      [some (.packet [1]), some (.arbitration 0), none] = some (.arbitration 0) :=
  (c7_get_stream_packet_spec "arbitration").1 [some (.packet [1])]
    (.arbitration 0) [none] (by decide) (by decide)

/-- C8: during the handshake, no arbitration reply within the budget is
fatal (`sys.exit 1`, no active session); a reply establishes the session
with mastership exactly when its status code is OK; and an ordinary
`get_stream_packet` timeout merely returns `none`. -/
theorem c8_handshake_spec (did eh el : Nat) (inbound : List (Option StreamMsg)) :
    (get_stream_packet "arbitration" inbound = none →
      (handshake did eh el inbound).2 = .fatalExit 1) ∧
    (∀ c, get_stream_packet "arbitration" inbound = some (.arbitration c) →
      (handshake did eh el inbound).2 = .established (c == OK_CODE)) ∧
    (∀ tag, get_stream_packet tag [] = none) := by
  refine ⟨?_, ?_, fun tag => rfl⟩
  · intro h
    simp [handshake, h]
  · intro c h
    simp [handshake, h, arbitrationCode]

/-- Witness for C8: an OK arbitration reply behind an unrelated packet
establishes the session as master. -/
theorem c8_witness :
    (handshake 1 1 0 [some (.packet []), some (.arbitration 0)]).2 =
      .established true :=
  (c8_handshake_spec 1 1 0 [some (.packet []), some (.arbitration 0)]).2.1 0 (by decide)

theorem mapPB_ok_forall {b : Type} (f : String × P4Value → Except PErr b)
    (l : List (String × P4Value)) :
    ∀ bs, mapPB f l = .ok bs → ∀ x ∈ l, ∃ y, f x = .ok y := by
  induction l with
  | nil => intro bs _ x hx; cases hx
  | cons p ps ih =>
    intro bs hmap x hx
    simp only [mapPB] at hmap
    cases hf : f p with
    | error e => rw [hf] at hmap; cases hmap
    | ok y =>
      rw [hf] at hmap
      cases hr : mapPB f ps with
      | error e => rw [hr] at hmap; cases hmap
      | ok ys =>
        rcases List.mem_cons.mp hx with rfl | hx2
        · exact ⟨y, hf⟩
        · exact ih ys hr x hx2

theorem mapPB_error_exists {b : Type} (f : String × P4Value → Except PErr b)
    (l : List (String × P4Value)) :
    ∀ e, mapPB f l = .error e → ∃ x ∈ l, f x = .error e := by
  induction l with
  | nil => intro e h; cases h
  | cons p ps ih =>
    intro e hmap
    simp only [mapPB] at hmap
    cases hf : f p with
    | error e2 =>
      rw [hf] at hmap
      injection hmap with h2
      subst h2
      exact ⟨p, List.mem_cons_self p ps, hf⟩
    | ok y =>
      rw [hf] at hmap
      cases hr : mapPB f ps with
      | error e2 =>
        rw [hr] at hmap
        injection hmap with h2
        subst h2
        obtain ⟨x, hx, hfx⟩ := ih e2 hr
        exact ⟨x, List.mem_cons_of_mem p hx, hfx⟩
      | ok ys => rw [hr] at hmap; cases hmap

/-- C9: buildTableEntry is all-or-nothing: a TableEntry is returned only
when the table resolution, every match-field construction, the action
resolution and every action-param construction succeeded; and when it
fails, the error is exactly the error raised by one of those sub-lookups
or encodings, propagated unchanged. -/
theorem c9_buildTableEntry_all_or_nothing (info : P4Info) (tn : String)
    (mfs : List (String × P4Value)) (da : Bool) (an : Option String)
    (aps : List (String × P4Value)) (pr : Option Nat) :
    (∀ te, buildTableEntry info tn mfs da an aps pr = .ok te →
      (∃ tid, get_tables_id info tn = .ok tid) ∧
      (∀ p ∈ mfs, ∃ fm, get_match_field_pb info tn p.1 p.2 = .ok fm) ∧
      (truthyStr an = true →
        (∃ aid, get_actions_id info (an.getD "") = .ok aid) ∧
        ∀ p ∈ aps, ∃ pb, get_action_param_pb info (an.getD "") p.1 p.2 = .ok pb)) ∧
    (∀ e, buildTableEntry info tn mfs da an aps pr = .error e →
      get_tables_id info tn = .error e ∨
      (∃ p ∈ mfs, get_match_field_pb info tn p.1 p.2 = .error e) ∨
      (truthyStr an = true ∧
        (get_actions_id info (an.getD "") = .error e ∨
         ∃ p ∈ aps, get_action_param_pb info (an.getD "") p.1 p.2 = .error e))) := by
  constructor
  · intro te h
    unfold buildTableEntry at h
    split at h
    · cases h
    · next tid heq =>
      split at h
      · cases h
      · next fms heq2 =>
        by_cases hact : truthyStr an = true
        · rw [if_pos hact] at h
          split at h
          · cases h
          · next aid heq3 =>
            split at h
            · cases h
            · next ps heq4 =>
              exact ⟨⟨tid, heq⟩, mapPB_ok_forall _ mfs fms heq2,
                fun _ => ⟨⟨aid, heq3⟩, mapPB_ok_forall _ aps ps heq4⟩⟩
        · rw [if_neg hact] at h
          exact ⟨⟨tid, heq⟩, mapPB_ok_forall _ mfs fms heq2,
            fun hc => absurd hc hact⟩
  · intro e h
    unfold buildTableEntry at h
    split at h
    · next e1 heq =>
      injection h with h2
      subst h2
      exact Or.inl heq
    · next tid heq =>
      split at h
      · next e2 heq2 =>
        injection h with h2
        subst h2
        exact Or.inr (Or.inl (mapPB_error_exists _ mfs e2 heq2))
      · next fms heq2 =>
        by_cases hact : truthyStr an = true
        · rw [if_pos hact] at h
          split at h
          · next e3 heq3 =>
            injection h with h2
            subst h2
            exact Or.inr (Or.inr ⟨hact, Or.inl heq3⟩)
          · next aid heq3 =>
            split at h
            · next e4 heq4 =>
              injection h with h2
              subst h2
              exact Or.inr (Or.inr ⟨hact, Or.inr (mapPB_error_exists _ aps e4 heq4)⟩)
            · next ps heq4 => cases h
        · rw [if_neg hact] at h
          cases h

/-- Empty schema used for the C9 witness. -/
def c9Info : P4Info := ⟨[], []⟩

/-- Witness for C9: a build against an empty schema fails, and the error
is located at one of the sub-lookups (here the table resolution). -/
theorem c9_witness :
    get_tables_id c9Info "nope" = .error .notFound ∨
    (∃ p ∈ ([] : List (String × P4Value)),
      get_match_field_pb c9Info "nope" p.1 p.2 = .error .notFound) ∨
    (truthyStr none = true ∧
      (get_actions_id c9Info ((none : Option String).getD "") = .error .notFound ∨
       ∃ p ∈ ([] : List (String × P4Value)),
         get_action_param_pb c9Info ((none : Option String).getD "") p.1 p.2 =
           .error .notFound)) :=
  (c9_buildTableEntry_all_or_nothing c9Info "nope" [] false none [] none).2
    .notFound (by decide)

theorem isHexDigit_ne_colon {c : Char} (h : isHexDigit c = true) : ¬(c = ':') := by
  intro hc
  subst hc
  exact absurd h (by decide)

theorem encodeMac_of_matchesMac (s : String) (hmac : matchesMac s = true) :
    ∃ bs, encodeMac s = some bs ∧ bs.length = 6 := by
  unfold matchesMac at hmac
  split at hmac
  case h_2 => cases hmac
  case h_1 a b c d e f g h i j k l heq =>
    simp only [Bool.and_eq_true] at hmac
    obtain ⟨⟨⟨⟨⟨⟨⟨⟨⟨⟨⟨h1, h2⟩, h3⟩, h4⟩, h5⟩, h6⟩, h7⟩, h8⟩, h9⟩, h10⟩, h11⟩, h12⟩ := hmac
    unfold encodeMac
    rw [heq]
    have hfil : List.filter (fun c => decide ¬(c = ':'))
        [a, b, ':', c, d, ':', e, f, ':', g, h, ':', i, j, ':', k, l] =
        [a, b, c, d, e, f, g, h, i, j, k, l] := by
      simp only [List.filter, decide_eq_true_eq, decide_not]
      simp [isHexDigit_ne_colon h1, isHexDigit_ne_colon h2, isHexDigit_ne_colon h3,
        isHexDigit_ne_colon h4, isHexDigit_ne_colon h5, isHexDigit_ne_colon h6,
        isHexDigit_ne_colon h7, isHexDigit_ne_colon h8, isHexDigit_ne_colon h9,
        isHexDigit_ne_colon h10, isHexDigit_ne_colon h11, isHexDigit_ne_colon h12]
    rw [hfil]
    simp [hexDecode, h1, h2, h3, h4, h5, h6, h7, h8, h9, h10, h11, h12]

theorem encodeIPv4_length (s : String) (bs : List Nat) (h : encodeIPv4 s = some bs) :
    bs.length = 4 := by
  unfold encodeIPv4 at h
  split at h
  · next a b c d heq =>
    cases hpa : parseOctet a with
    | none => rw [hpa] at h; cases h
    | some x =>
      rw [hpa] at h
      cases hpb : parseOctet b with
      | none => rw [hpb] at h; cases h
      | some y =>
        rw [hpb] at h
        cases hpc : parseOctet c with
        | none => rw [hpc] at h; cases h
        | some z =>
          rw [hpc] at h
          cases hpd : parseOctet d with
          | none => rw [hpd] at h; cases h
          | some w =>
            rw [hpd] at h
            have h2 : (if (decide (x ≤ 255) && decide (y ≤ 255) && decide (z ≤ 255) &&
                decide (w ≤ 255)) = true then some [x, y, z, w]
                else (none : Option (List Nat))) = some bs := h
            split at h2
            · injection h2 with h3
              subst h3
              rfl
            · cases h2
  · cases h

/-- C10 counterexample: "999.999.999.999" matches the IPv4 regex yet
`encode` does not produce 4 bytes for it — `inet_aton` rejects octets
above 255 and the resulting error is not the length assertion. -/
theorem c10_counterexample_ipv4_octet_out_of_range :
    matchesIPv4 "999.999.999.999" = true ∧
    encode (.vstr "999.999.999.999") 32 = .error (.valueError "illegal IP address string") ∧
    PErr.valueError "illegal IP address string" ≠ PErr.assertionFailed :=
  ⟨by decide, by decide, by decide⟩

/-- C10 (amended): in `encode`, a MAC-matching string always yields its 6
hex bytes and an IPv4-matching string its 4 network-order bytes when
`inet_aton` accepts it (an out-of-range octet raises the address-parse
error instead); any other string passes through unchanged; and the only
length check is the final assertion, so a produced length different from
ceil(bitwidth/8) fails with an assertion failure, never an EncodingError. -/
theorem c10_encode_length_is_final_assertion (s : String) (bw : Nat) :
    (matchesMac s = true →
      ∃ bs, encodeMac s = some bs ∧ bs.length = 6 ∧
        encode (.vstr s) bw =
          (if 6 = bitwidthToBytes bw then .ok bs else .error .assertionFailed)) ∧
    (matchesMac s = false → matchesIPv4 s = true →
      (∀ bs, encodeIPv4 s = some bs → bs.length = 4 ∧
        encode (.vstr s) bw =
          (if 4 = bitwidthToBytes bw then .ok bs else .error .assertionFailed)) ∧
      (encodeIPv4 s = none →
        encode (.vstr s) bw = .error (.valueError "illegal IP address string"))) ∧
    (matchesMac s = false → matchesIPv4 s = false →
      encode (.vstr s) bw =
        (if (strBytes s).length = bitwidthToBytes bw then .ok (strBytes s)
         else .error .assertionFailed)) := by
  refine ⟨?_, ?_, ?_⟩
  · intro hmac
    obtain ⟨bs, hbs, hlen⟩ := encodeMac_of_matchesMac s hmac
    refine ⟨bs, hbs, hlen, ?_⟩
    simp only [encode, hmac, hbs, if_true]
    rw [hlen]
  · intro hmac hip
    constructor
    · intro bs hbs
      have hlen := encodeIPv4_length s bs hbs
      refine ⟨hlen, ?_⟩
      simp only [encode, hmac, hip, hbs, if_true, Bool.false_eq_true, if_false]
      rw [hlen]
    · intro hnone
      simp only [encode, hmac, hip, hnone, if_true, Bool.false_eq_true, if_false]
  · intro hmac hip
    simp only [encode, hmac, hip, Bool.false_eq_true, if_false]

/-- Witness for C10 (amended): a MAC string against bitwidth 32 (4 bytes
expected, 6 produced) fails with the assertion, not an EncodingError. -/
theorem c10_witness :
    encode (.vstr "aa:bb:cc:dd:ee:ff") 32 = .error .assertionFailed := by
  obtain ⟨bs, hbs, hlen, henc⟩ :=
    (c10_encode_length_is_final_assertion "aa:bb:cc:dd:ee:ff" 32).1 (by decide)
  rw [henc, if_neg (by decide)]

end OvsP4Ctl
